import Mathlib

/-!
Verification development for the configuration-aggregation and session-locking
core of the operator-terminagent repository.

The JavaScript/TypeScript sources are shallowly embedded:
JS numbers are modelled as rationals (`ℚ`), JS strings as `String`,
fallible or store-mutating operations as explicit state passing over a
`Store` value, and the Firestore transaction of `lockSession` as a single
atomic function whose error result carries out no writes.
Wall-clock reads (`Date.now()`, `serverTimestamp()`) become an explicit
`now : ℕ` argument, and `Math.random()`-driven join-code generation becomes
an explicit stream `codes : ℕ → String` of generated codes.
-/

/-! Embedding of the JS primitives used by the source. -/

/-- Embeds JS `Math.round` on a rational: round half toward positive infinity. -/
def jsRound (x : ℚ) : ℤ := ⌊x + 1 / 2⌋

/-- Embeds JS 32-bit signed wrap-around (`| 0` / `& hash` coercion, `ToInt32`). -/
def jsInt32 (n : ℤ) : ℤ := (n + 2 ^ 31) % 2 ^ 32 - 2 ^ 31

/-- Embeds `String.prototype.toLowerCase` for the ASCII alphabet used by join codes. -/
def jsToLower (s : String) : String := String.mk (s.data.map Char.toLower)

/-- Embeds `String.prototype.toUpperCase` for the ASCII alphabet used by join codes. -/
def jsToUpper (s : String) : String := String.mk (s.data.map Char.toUpper)

/-- Digit character for bases up to 36, as produced by JS `Number.prototype.toString(36)`. -/
def base36Char (d : ℕ) : Char := if d < 10 then Char.ofNat (48 + d) else Char.ofNat (87 + d)

/-- Fuel-driven digit expansion in a base; fuel bounds the digit count so the
recursion is structural (kernel-reducible). -/
def toDigitsAux (base : ℕ) : ℕ → ℕ → List Char → List Char
  | 0, _, acc => acc
  | fuel + 1, n, acc =>
    if n < base then base36Char n :: acc
    else toDigitsAux base fuel (n / base) (base36Char (n % base) :: acc)

/-- Embeds JS `n.toString(36)` for a natural number. -/
def toBase36 (n : ℕ) : String := String.mk (toDigitsAux 36 (n + 1) n [])

/-- Embeds JS decimal rendering of a natural number. -/
def natToDec (n : ℕ) : String := String.mk (toDigitsAux 10 (n + 1) n [])

/-- Embeds JS decimal rendering of an integer. -/
def intToDec (i : ℤ) : String := if i < 0 then "-" ++ natToDec i.natAbs else natToDec i.natAbs

/-! Data model of `src/lib/aggregation.ts`.

JS numbers are rationals; `agent_goal` is a `String` because the TypeScript
union type is erased at runtime and the source code defensively re-validates
goal values against `VALID_GOALS`. -/

/-- Embeds the `SpecsSelection` interface: one participant's proposed configuration. -/
structure SpecsSelection where
  model : String
  agent_goal : String
  adaptive_learning : ℚ
  long_term_planning : ℚ
  personnel_database : ℚ
  operational_logs : ℚ
  external_notifications : ℚ
  environmental_monitoring : ℚ
  resource_optimization : ℚ
  workflow_automation : ℚ
  integrated_control : ℚ
  audits : ℚ
  red_team : ℚ
  sandbox : ℚ
deriving DecidableEq

/-- Embeds the `FinalConfig` interface: the aggregated (or host-edited) configuration. -/
structure FinalConfig where
  model : String
  agent_goal : String
  adaptive_learning : ℚ
  long_term_planning : ℚ
  personnel_database : ℚ
  operational_logs : ℚ
  external_notifications : ℚ
  environmental_monitoring : ℚ
  resource_optimization : ℚ
  workflow_automation : ℚ
  integrated_control : ℚ
  audits : ℚ
  red_team : ℚ
  sandbox : ℚ
deriving DecidableEq

/-- Embeds the `FinalConfigMeta` interface. -/
structure FinalConfigMeta where
  methodVersion : String
  selectionCount : ℕ
  computedAt : ℕ
  configId : String
deriving DecidableEq

/-- Embeds the `VALID_MODELS` constant of `aggregation.ts`. -/
def VALID_MODELS : List String :=
  ["Claude Opus 4", "Claude Sonnet 3.6", "DeepSeek-R1", "Gemini-2.5-Pro",
   "Gemini-2.5-Flash", "GPT-4.1", "Grok-3-Beta"]

/-- Embeds the `VALID_GOALS` constant of `aggregation.ts`. -/
def VALID_GOALS : List String := ["none", "efficiency", "american_interests"]

/-- Embeds `clampBoundary`: `Math.max(0, Math.min(3, Math.round(value)))`. -/
def clampBoundary (value : ℚ) : ℚ := max 0 (min 3 (jsRound value : ℚ))

/-- Largest count held by any value of the list.  This embeds the
`maxCount` accumulator of the `counts.forEach` scans in `modeSnapHighest`
and `majorityVote`: the JS `Map` holds one entry per distinct element
(`dedup`), the scan keeps the running maximum of the counts. -/
def maxCountOf {α : Type} [DecidableEq α] (l : List α) : ℕ :=
  (l.dedup.map (fun v => l.count v)).foldl max 0

/-- Values of the list whose count is maximal.  This embeds the
`modeCandidates` / `candidates` arrays built by the `counts.forEach` scans in
`modeSnapHighest` and `majorityVote`: after the scan the array holds exactly
the distinct values whose frequency equals the global maximum (iteration
order of the JS `Map` only permutes the array, and every later use of the
array — `length`, `[0]` of a singleton, `Math.max`, `includes` — is
order-insensitive). -/
def modeCandidates {α : Type} [DecidableEq α] (l : List α) : List α :=
  l.dedup.filter (fun v => l.count v = maxCountOf l)

/-- Embeds JS `Math.max(...list)`; the `[]` case (JS `-Infinity`) is
unreachable at the call site and mapped to `0`. -/
def maxOfList (l : List ℚ) : ℚ :=
  match l with
  | [] => 0
  | c :: cs => cs.foldl max c

/-- Embeds `modeSnapHighest` of `aggregation.ts`: clamp all votes, take the most
frequent clamped value; with a unique mode, prefer the highest original vote
mapping to it (re-clamped); with tied modes, take the numerically highest. -/
def modeSnapHighest (values : List ℚ) : ℚ :=
  if values = [] then 0
  else
    let clampedValues := values.map clampBoundary
    let candidates := modeCandidates clampedValues
    if candidates.length = 1 then
      let modeValue := candidates.headD 0
      let highestOriginal :=
        values.foldl (fun acc v => if clampBoundary v = modeValue ∧ v > acc then v else acc)
          modeValue
      clampBoundary highestOriginal
    else
      maxOfList candidates

/-- Embeds `majorityVote` of `aggregation.ts`: most frequent value wins; ties are
broken by the first tied candidate in `tieBreakOrder`; `values = []` falls back
to `tieBreakOrder[0]`. -/
def majorityVote {α : Type} [DecidableEq α] [Inhabited α]
    (values : List α) (tieBreakOrder : List α) : α :=
  if values = [] then tieBreakOrder.headI
  else
    let candidates := modeCandidates values
    if candidates.length = 1 then candidates.headI
    else
      match tieBreakOrder.find? (fun c => decide (c ∈ candidates)) with
      | some c => c
      | none => candidates.headI

/-! Config identity (`hashConfig`).

A JS object is modelled as its insertion-ordered list of fields, so that the
field-order-invariance contract of `hashConfig` is statable.  Field values are
either strings or numbers (the only value kinds in a `FinalConfig`). -/

/-- Value of one JS object field of a configuration object. -/
inductive JVal where
  | str (s : String)
  | num (q : ℚ)
deriving DecidableEq

/-- JSON rendering of one field value, as `JSON.stringify` produces it on this
domain: strings are quoted (model and goal names contain no characters needing
escapes), and every number in a configuration is integer-valued so it renders
as its plain decimal digits.  The non-integral fallback renders
numerator/denominator; it is outside the domain occurring in the source. -/
def serializeJVal : JVal → String
  | .str s => "\"" ++ s ++ "\""
  | .num q => if q.den = 1 then intToDec q.num else intToDec q.num ++ "/" ++ natToDec q.den

/-- Insertion step of insertion sort by string order; embeds the comparator
semantics of JS `Array.prototype.sort()` on these ASCII keys. -/
def insertSorted (s : String) : List String → List String
  | [] => [s]
  | t :: ts => if s ≤ t then s :: t :: ts else t :: insertSorted s ts

/-- Embeds `Object.keys(config).sort()`: the object's keys in ascending order. -/
def sortKeys (l : List String) : List String := l.foldr insertSorted []

/-- Embeds JS property access `obj[key]` on an object modelled as a field list. -/
def getField : List (String × JVal) → String → Option JVal
  | [], _ => none
  | (k, v) :: ps, key => if key = k then some v else getField ps key

/-- Embeds `JSON.stringify(config, Object.keys(config).sort())`: a JSON object
with the fields serialized in sorted key order. -/
def stableStringify (pairs : List (String × JVal)) : String :=
  let ks := sortKeys (pairs.map Prod.fst)
  "\x7b" ++
    String.intercalate ","
      (ks.map (fun k => "\"" ++ k ++ "\":" ++ serializeJVal ((getField pairs k).getD (.str ""))))
    ++ "\x7d"

/-- One step of the rolling hash loop of `hashConfig`:
`hash = ((hash << 5) - hash) + char; hash = hash & hash`. -/
def hashStep (hash : ℤ) (c : Char) : ℤ := jsInt32 (jsInt32 (hash * 32) - hash + c.toNat)

/-- The rolling 32-bit hash over a serialized string, starting from `0`. -/
def hashString (s : String) : ℤ := s.data.foldl hashStep 0

/-- Embeds `hashConfig` of `aggregation.ts` on an object given as a field list:
stable stringify with sorted keys, rolling 32-bit hash,
`Math.abs(hash).toString(36).substring(0, 12)`. -/
def hashConfig (pairs : List (String × JVal)) : String :=
  String.mk ((toBase36 (hashString (stableStringify pairs)).natAbs).data.take 12)

/-- Field list of a `FinalConfig` object as constructed by the source
(declaration order of the object literals in `aggregation.ts`). -/
def configPairs (c : FinalConfig) : List (String × JVal) :=
  [("model", .str c.model), ("agent_goal", .str c.agent_goal),
   ("adaptive_learning", .num c.adaptive_learning),
   ("long_term_planning", .num c.long_term_planning),
   ("personnel_database", .num c.personnel_database),
   ("operational_logs", .num c.operational_logs),
   ("external_notifications", .num c.external_notifications),
   ("environmental_monitoring", .num c.environmental_monitoring),
   ("resource_optimization", .num c.resource_optimization),
   ("workflow_automation", .num c.workflow_automation),
   ("integrated_control", .num c.integrated_control),
   ("audits", .num c.audits), ("red_team", .num c.red_team), ("sandbox", .num c.sandbox)]

/-- The fixed default configuration written out in `computeFinalConfig` (and
repeated verbatim in `SessionLobby.tsx`). -/
def defaultConfig : FinalConfig :=
  { model := "DeepSeek-R1", agent_goal := "none",
    adaptive_learning := 0, long_term_planning := 0, personnel_database := 0,
    operational_logs := 0, external_notifications := 0, environmental_monitoring := 0,
    resource_optimization := 0, workflow_automation := 0, integrated_control := 0,
    audits := 0, red_team := 0, sandbox := 0 }

/-- Result record of `computeFinalConfig`. -/
structure AggResult where
  finalConfig : FinalConfig
  meta : FinalConfigMeta
deriving DecidableEq

/-- Embeds `computeFinalConfig` of `aggregation.ts`.  `now` stands for
`Date.now()`. -/
def computeFinalConfig (now : ℕ) (selections : List SpecsSelection) : AggResult :=
  if selections = [] then
    { finalConfig := defaultConfig,
      meta := { methodVersion := "v1", selectionCount := 0, computedAt := now,
                configId := hashConfig (configPairs defaultConfig) } }
  else
    let modelVotes := (selections.map (fun s => s.model)).filter
      (fun m => decide (m ∈ VALID_MODELS))
    let finalModel := if 0 < modelVotes.length
      then majorityVote modelVotes VALID_MODELS else "DeepSeek-R1"
    let goalVotes := (selections.map (fun s => s.agent_goal)).filter
      (fun g => decide (g ∈ VALID_GOALS))
    let finalGoal := if 0 < goalVotes.length
      then majorityVote goalVotes VALID_GOALS else "none"
    let finalConfig : FinalConfig :=
      { model := finalModel, agent_goal := finalGoal,
        adaptive_learning := modeSnapHighest (selections.map (fun s => s.adaptive_learning)),
        long_term_planning := modeSnapHighest (selections.map (fun s => s.long_term_planning)),
        personnel_database := modeSnapHighest (selections.map (fun s => s.personnel_database)),
        operational_logs := modeSnapHighest (selections.map (fun s => s.operational_logs)),
        external_notifications :=
          modeSnapHighest (selections.map (fun s => s.external_notifications)),
        environmental_monitoring :=
          modeSnapHighest (selections.map (fun s => s.environmental_monitoring)),
        resource_optimization :=
          modeSnapHighest (selections.map (fun s => s.resource_optimization)),
        workflow_automation := modeSnapHighest (selections.map (fun s => s.workflow_automation)),
        integrated_control := modeSnapHighest (selections.map (fun s => s.integrated_control)),
        audits := modeSnapHighest (selections.map (fun s => s.audits)),
        red_team := modeSnapHighest (selections.map (fun s => s.red_team)),
        sandbox := modeSnapHighest (selections.map (fun s => s.sandbox)) }
    { finalConfig := finalConfig,
      meta := { methodVersion := "v1", selectionCount := selections.length, computedAt := now,
                configId := hashConfig (configPairs finalConfig) } }

/-! Data model of `src/lib/sessions.ts`.

Firestore is modelled as a `Store` of association lists: `sessions` maps a
session key to its document, `selections` maps a session key to the
`selections` subcollection (selection doc id, ordinarily the submitting
player's id, paired with the stored record).  Server timestamps become the
explicit `now` argument.  A transactional operation returns
`Except String Unit` together with the post-state; an `error` result models a
thrown error inside `runTransaction`, which aborts with no writes, so the
returned post-state is the unchanged pre-state. -/

/-- Status of a session document: `'lobby' | 'locked' | 'ended'`. -/
inductive SessionStatus where
  | lobby
  | locked
  | ended
deriving DecidableEq

/-- Embeds the `Session` interface of `sessions.ts`. -/
structure Session where
  joinCode : String
  status : SessionStatus
  hostId : String
  createdAt : ℕ
  lockedAt : Option ℕ
  finalConfig : Option FinalConfig
  finalConfigMeta : Option FinalConfigMeta
deriving DecidableEq

/-- Embeds the `PlayerSelection` interface of `sessions.ts`. -/
structure PlayerSelection where
  playerId : String
  playerName : Option String
  specs : SpecsSelection
  updatedAt : ℕ
deriving DecidableEq

/-- Association-list lookup, embedding a Firestore document read by key. -/
def getEntry {β : Type} : List (String × β) → String → Option β
  | [], _ => none
  | (k, v) :: ps, key => if key = k then some v else getEntry ps key

/-- Association-list upsert, embedding a Firestore `setDoc` / keyed write. -/
def setEntry {β : Type} : List (String × β) → String → β → List (String × β)
  | [], key, v => [(key, v)]
  | (k, w) :: ps, key, v => if key = k then (key, v) :: ps else (k, w) :: setEntry ps key v

/-- The modelled document store backing the session subsystem. -/
structure Store where
  sessions : List (String × Session)
  selections : List (String × List (String × PlayerSelection))
deriving DecidableEq

/-- Embeds `getDoc(doc(db, 'sessions', sessionId))`. -/
def lookupSession (store : Store) (sessionId : String) : Option Session :=
  getEntry store.sessions sessionId

/-- Embeds `getDocs` over the `selections` subcollection of a session: the list
of (doc id, record) pairs currently stored.  Enumeration order follows the
model list; every consumer in this development is insensitive to that order
(see the permutation-invariance theorem for `computeFinalConfig`). -/
def sessionSelections (store : Store) (sessionId : String) : List (String × PlayerSelection) :=
  (getEntry store.selections sessionId).getD []

/-- Embeds `lockSession` of `sessions.ts`: inside one transaction, read the
session; throw if missing, not in lobby, or the caller is not the host;
otherwise compute (or accept) the final config and update the session document
with `status = 'locked'`, `lockedAt`, `finalConfig`, `finalConfigMeta`.
An error result carries the unchanged pre-state (transaction abort). -/
def lockSession (now : ℕ) (hostId : String) (store : Store) (sessionId : String)
    (customConfig : Option FinalConfig) : Except String Unit × Store :=
  match lookupSession store sessionId with
  | none => (.error "Session not found", store)
  | some sessionData =>
    if sessionData.status ≠ .lobby then (.error "Session is not in lobby status", store)
    else if sessionData.hostId ≠ hostId then
      (.error "Only the host can lock the session", store)
    else
      let docs := sessionSelections store sessionId
      let result : FinalConfig × FinalConfigMeta :=
        match customConfig with
        | some c =>
          (c, { methodVersion := "v1-host-edited", selectionCount := docs.length,
                computedAt := now, configId := hashConfig (configPairs c) })
        | none =>
          let computed := computeFinalConfig now (docs.map (fun d => d.2.specs))
          (computed.finalConfig, computed.meta)
      (.ok (),
       { store with
          sessions := setEntry store.sessions sessionId
            { sessionData with
                status := .locked, lockedAt := some now,
                finalConfig := some result.1, finalConfigMeta := some result.2 } })

/-- Modelled from the spec: the repository's `firestore.rules` file is not among
the sources (only the implementation summary describing it is), and it is the
layer that rejects post-lock selection writes — per the summary, create/update
on a `selections` document is allowed only while the session is in lobby, and
per the spec a submit against a non-lobby session is an InvalidState error.
The client half below the gate embeds `submitSelection` of `sessions.ts`: an
upsert of the caller's selection record keyed by the caller's player id. -/
def submitSelection (now : ℕ) (playerId : String) (playerName : Option String)
    (store : Store) (sessionId : String) (specs : SpecsSelection) :
    Except String Unit × Store :=
  if (lookupSession store sessionId).map Session.status = some .lobby then
    let selectionData : PlayerSelection :=
      { playerId := playerId, playerName := playerName, specs := specs, updatedAt := now }
    (.ok (),
     { store with
        selections := setEntry store.selections sessionId
          (setEntry (sessionSelections store sessionId) playerId selectionData) })
  else (.error "InvalidState", store)

/-- Embeds the collision-retry loop of `createSession`: while fewer than 10
attempts, check whether a session exists under the current candidate key; stop
at the first free key, otherwise move to the next generated code.  `fuel`
counts the remaining attempts (starting at 10); the candidate after the check
that consumed fuel `f` is code number `11 - f`. -/
def createLoop (store : Store) (codes : ℕ → String) : ℕ → String → String
  | 0, sessionId => sessionId
  | fuel + 1, sessionId =>
    if lookupSession store sessionId = none then sessionId
    else createLoop store codes fuel (jsToLower (codes (11 - (fuel + 1))))

/-- Embeds `createSession` of `sessions.ts`: generate a join code, retry on
collision up to 10 times, then unconditionally `setDoc` the new session record
under the final candidate key with `status = 'lobby'`. -/
def createSession (now : ℕ) (hostId : String) (codes : ℕ → String) (store : Store) :
    (String × String) × Store :=
  let sessionId := createLoop store codes 10 (jsToLower (codes 0))
  let sessionData : Session :=
    { joinCode := jsToUpper sessionId, status := .lobby, hostId := hostId, createdAt := now,
      lockedAt := none, finalConfig := none, finalConfigMeta := none }
  ((sessionId, jsToUpper sessionId),
   { store with sessions := setEntry store.sessions sessionId sessionData })

/-- Embeds the live-preview aggregation effect of `SessionLobby.tsx`
(the `useEffect` computing `previewConfig`): drop every selection whose doc id
equals the session's `hostId`, aggregate the rest, and fall back to the default
config when no non-host selections exist. -/
def sessionLobbyPreview (now : ℕ) (sessionHostId : String)
    (selections : List (String × PlayerSelection)) : FinalConfig :=
  let nonHostSelections := selections.filter (fun sel => sel.1 ≠ sessionHostId)
  if 0 < nonHostSelections.length then
    (computeFinalConfig now (nonHostSelections.map (fun s => s.2.specs))).finalConfig
  else defaultConfig

/-- Ordinal aggregation rule written from the words of the specification, for
comparison against `modeSnapHighest`: clamp every vote to [0,3]; the most
frequent clamped value wins, frequency ties resolved by the numerically
highest tied value; then, among the original (pre-clamp) votes that clamp to
the winner, any original vote exceeding the winner replaces it, re-clamped to
[0,3]. -/
def specOrdinalRule (values : List ℚ) : ℚ :=
  let clamped := values.map clampBoundary
  let maxFreq := (clamped.map (fun v => clamped.count v)).foldl max 0
  let tied := clamped.filter (fun v => clamped.count v = maxFreq)
  let winner := maxOfList tied
  let exceeding := values.filter (fun v => clampBoundary v = winner ∧ v > winner)
  if exceeding = [] then winner else clampBoundary (maxOfList exceeding)

/-! Concrete example values used to instantiate the theorems below. -/

/-- A neutral selection: default model, goal `none`, all dials 0. -/
def baseSelection : SpecsSelection :=
  { model := "DeepSeek-R1", agent_goal := "none",
    adaptive_learning := 0, long_term_planning := 0, personnel_database := 0,
    operational_logs := 0, external_notifications := 0, environmental_monitoring := 0,
    resource_optimization := 0, workflow_automation := 0, integrated_control := 0,
    audits := 0, red_team := 0, sandbox := 0 }

/-- A selection whose categorical fields are both outside their declared domains. -/
def selBogus : SpecsSelection :=
  { baseSelection with model := "Llama-3", agent_goal := "world_peace" }

/-- A selection voting for a valid model and goal. -/
def selValidGPT : SpecsSelection :=
  { baseSelection with model := "GPT-4.1", agent_goal := "efficiency" }

/-- A selection voting goal `none`. -/
def selGoalNone : SpecsSelection := { baseSelection with agent_goal := "none" }

/-- A selection voting goal `efficiency`. -/
def selGoalEff : SpecsSelection := { baseSelection with agent_goal := "efficiency" }

/-- A selection voting goal `american_interests`. -/
def selGoalAmer : SpecsSelection := { baseSelection with agent_goal := "american_interests" }

/-- A selection voting model `Claude Opus 4`. -/
def selModelOpus : SpecsSelection := { baseSelection with model := "Claude Opus 4" }

/-- A selection voting model `Claude Sonnet 3.6`. -/
def selModelSonnet : SpecsSelection := { baseSelection with model := "Claude Sonnet 3.6" }

/-- A session in lobby state hosted by `host_1`. -/
def exampleLobbySession : Session :=
  { joinCode := "ABC234", status := .lobby, hostId := "host_1", createdAt := 0,
    lockedAt := none, finalConfig := none, finalConfigMeta := none }

/-- A store holding one lobby session whose only selection record is keyed by
the session's own `hostId` and votes for `GPT-4.1`. -/
def exampleHostVoteStore : Store :=
  { sessions := [("abc234", exampleLobbySession)],
    selections := [("abc234",
      [("host_1",
        { playerId := "host_1", playerName := none, specs := selValidGPT, updatedAt := 0 })])] }

/-- A store holding one locked session (with a locked final config present). -/
def exampleLockedStore : Store :=
  { sessions := [("abc234",
      { exampleLobbySession with
          status := .locked, lockedAt := some 1,
          finalConfig := some defaultConfig,
          finalConfigMeta := some
            { methodVersion := "v1", selectionCount := 0, computedAt := 1,
              configId := hashConfig (configPairs defaultConfig) } })],
    selections := [] }

/-- A code stream whose first eleven codes are `C0`, `C1`, …, `C10`. -/
def exampleCodes (i : ℕ) : String := "C" ++ natToDec i

/-- A store in which sessions already exist under the keys of the first eleven
generated codes, so every collision check of `createSession` fires. -/
def exampleFullStore : Store :=
  { sessions := (List.range 11).map (fun i => (jsToLower (exampleCodes i), exampleLobbySession)),
    selections := [] }

/-! Supporting lemmas. -/

theorem foldlMax_le_iff {α : Type} [LinearOrder α] (l : List α) (d c : α) :
    l.foldl max d ≤ c ↔ d ≤ c ∧ ∀ x ∈ l, x ≤ c := by
  induction l generalizing d with
  | nil => simp
  | cons a l ih =>
    simp only [List.foldl_cons, ih, max_le_iff, List.mem_cons, forall_eq_or_imp]
    tauto

theorem le_foldlMax {α : Type} [LinearOrder α] (l : List α) (d : α) :
    d ≤ l.foldl max d ∧ ∀ x ∈ l, x ≤ l.foldl max d :=
  (foldlMax_le_iff l d _).mp le_rfl

theorem foldlMax_mem_or_eq {α : Type} [LinearOrder α] (l : List α) (d : α) :
    l.foldl max d ∈ l ∨ l.foldl max d = d := by
  induction l generalizing d with
  | nil => right; rfl
  | cons a l ih =>
    rw [List.foldl_cons]
    rcases ih (max d a) with h | h
    · left; exact List.mem_cons_of_mem _ h
    · rcases max_choice d a with h' | h'
      · right; rw [h, h']
      · left; rw [h, h']; exact List.mem_cons_self _ _

theorem foldlMax_eq_of_mem_iff {α : Type} [LinearOrder α] {l₁ l₂ : List α} (d : α)
    (h : ∀ x, x ∈ l₁ ↔ x ∈ l₂) : l₁.foldl max d = l₂.foldl max d :=
  le_antisymm
    ((foldlMax_le_iff l₁ d _).mpr
      ⟨(le_foldlMax l₂ d).1, fun x hx => (le_foldlMax l₂ d).2 x ((h x).mp hx)⟩)
    ((foldlMax_le_iff l₂ d _).mpr
      ⟨(le_foldlMax l₁ d).1, fun x hx => (le_foldlMax l₁ d).2 x ((h x).mpr hx)⟩)

theorem jsRound_intCast (n : ℤ) : jsRound (n : ℚ) = n := by
  unfold jsRound
  rw [add_comm, Int.floor_add_int]
  norm_num [Int.floor_eq_zero_iff, Set.mem_Ico]

theorem clampBoundary_eq_intCast (x : ℚ) :
    clampBoundary x = ((max 0 (min 3 (jsRound x)) : ℤ) : ℚ) := by
  unfold clampBoundary
  push_cast
  rfl

theorem clampBoundary_intCast {m : ℤ} (h0 : 0 ≤ m) (h3 : m ≤ 3) :
    clampBoundary (m : ℚ) = (m : ℚ) := by
  unfold clampBoundary
  rw [jsRound_intCast, min_eq_right (by exact_mod_cast h3), max_eq_right (by exact_mod_cast h0)]

theorem clampBoundary_idem (x : ℚ) : clampBoundary (clampBoundary x) = clampBoundary x := by
  rw [clampBoundary_eq_intCast x]
  exact clampBoundary_intCast (le_max_left _ _) (max_le (by norm_num) (min_le_left _ _))

theorem clampBoundary_nonneg (x : ℚ) : 0 ≤ clampBoundary x := le_max_left _ _

theorem clampBoundary_le_three (x : ℚ) : clampBoundary x ≤ 3 :=
  max_le (by norm_num) (le_trans (min_le_left _ _) le_rfl)

theorem count_le_maxCountOf {α : Type} [DecidableEq α] {l : List α} {v : α} (hv : v ∈ l) :
    l.count v ≤ maxCountOf l :=
  (le_foldlMax _ _).2 _ (List.mem_map_of_mem _ (List.mem_dedup.mpr hv))

theorem maxCountOf_pos {α : Type} [DecidableEq α] {l : List α} (h : l ≠ []) :
    0 < maxCountOf l := by
  obtain ⟨a, ha⟩ := List.exists_mem_of_ne_nil l h
  calc 0 < l.count a := List.count_pos_iff.mpr ha
    _ ≤ maxCountOf l := count_le_maxCountOf ha

theorem maxCountOf_attained {α : Type} [DecidableEq α] {l : List α} (h : l ≠ []) :
    ∃ v ∈ l, l.count v = maxCountOf l := by
  have hm := foldlMax_mem_or_eq (l.dedup.map (fun v => l.count v)) 0
  rw [show (l.dedup.map (fun v => l.count v)).foldl max 0 = maxCountOf l from rfl] at hm
  rcases hm with hm | h0
  · obtain ⟨v, hv, hcv⟩ := List.mem_map.mp hm
    exact ⟨v, List.mem_dedup.mp hv, hcv⟩
  · exact absurd (h0 ▸ maxCountOf_pos h) (lt_irrefl 0)

theorem mem_modeCandidates {α : Type} [DecidableEq α] {l : List α} {v : α} :
    v ∈ modeCandidates l ↔ v ∈ l ∧ l.count v = maxCountOf l := by
  simp [modeCandidates, List.mem_filter, List.mem_dedup]

theorem modeCandidates_ne_nil {α : Type} [DecidableEq α] {l : List α} (h : l ≠ []) :
    modeCandidates l ≠ [] := by
  obtain ⟨v, hv, hc⟩ := maxCountOf_attained h
  exact List.ne_nil_of_mem (mem_modeCandidates.mpr ⟨hv, hc⟩)

theorem maxCountOf_perm {α : Type} [DecidableEq α] {l₁ l₂ : List α} (p : l₁.Perm l₂) :
    maxCountOf l₁ = maxCountOf l₂ := by
  unfold maxCountOf
  apply foldlMax_eq_of_mem_iff
  intro x
  simp only [List.mem_map, List.mem_dedup]
  constructor
  · rintro ⟨v, hv, rfl⟩; exact ⟨v, p.mem_iff.mp hv, (p.count_eq v).symm⟩
  · rintro ⟨v, hv, rfl⟩; exact ⟨v, p.mem_iff.mpr hv, p.count_eq v⟩

theorem mem_modeCandidates_perm {α : Type} [DecidableEq α] {l₁ l₂ : List α}
    (p : l₁.Perm l₂) (v : α) : v ∈ modeCandidates l₁ ↔ v ∈ modeCandidates l₂ := by
  rw [mem_modeCandidates, mem_modeCandidates, p.mem_iff, p.count_eq, maxCountOf_perm p]

theorem maxOfList_mem {l : List ℚ} (h : l ≠ []) : maxOfList l ∈ l := by
  cases l with
  | nil => exact absurd rfl h
  | cons c cs =>
    show cs.foldl max c ∈ c :: cs
    rcases foldlMax_mem_or_eq cs c with hm | he
    · exact List.mem_cons_of_mem _ hm
    · rw [he]; exact List.mem_cons_self _ _

theorem le_maxOfList {l : List ℚ} {x : ℚ} (hx : x ∈ l) : x ≤ maxOfList l := by
  cases l with
  | nil => simp at hx
  | cons c cs =>
    rcases List.mem_cons.mp hx with rfl | hx'
    · exact (le_foldlMax cs x).1
    · exact (le_foldlMax cs c).2 x hx'

theorem maxOfList_le {l : List ℚ} {c : ℚ} (h : l ≠ []) (hall : ∀ x ∈ l, x ≤ c) :
    maxOfList l ≤ c :=
  hall _ (maxOfList_mem h)

theorem maxOfList_eq_of_mem_iff {l₁ l₂ : List ℚ} (h₁ : l₁ ≠ []) (h₂ : l₂ ≠ [])
    (h : ∀ x, x ∈ l₁ ↔ x ∈ l₂) : maxOfList l₁ = maxOfList l₂ :=
  le_antisymm (maxOfList_le h₁ fun x hx => le_maxOfList ((h x).mp hx))
    (maxOfList_le h₂ fun x hx => le_maxOfList ((h x).mpr hx))

theorem find?_congr_pred {α : Type} {p q : α → Bool} (h : ∀ x, p x = q x) (l : List α) :
    l.find? p = l.find? q := by
  induction l with
  | nil => rfl
  | cons a l ih =>
    simp only [List.find?_cons, h a]
    cases q a <;> simp [ih]

theorem find?_eq_some_of_unique {α : Type} {p : α → Bool} {c : α} {l : List α}
    (hc : c ∈ l) (hp : ∀ x, p x = true ↔ x = c) : l.find? p = some c := by
  induction l with
  | nil => cases hc
  | cons a l ih =>
    by_cases ha : a = c
    · subst ha
      have hpa : p a = true := (hp a).mpr rfl
      simp [List.find?_cons, hpa]
    · have hpa : p a = false := by
        cases hq : p a
        · rfl
        · exact absurd ((hp a).mp hq) ha
      have hcl : c ∈ l := by
        rcases List.mem_cons.mp hc with h1 | h1
        · exact absurd h1.symm ha
        · exact h1
      simp [List.find?_cons, hpa, ih hcl]

theorem boostFold_clamp (modeValue : ℚ) :
    ∀ (values : List ℚ) (acc : ℚ), clampBoundary acc = modeValue →
      clampBoundary (values.foldl
        (fun acc v => if clampBoundary v = modeValue ∧ v > acc then v else acc) acc) = modeValue
  | [], _, hacc => hacc
  | v :: vs, acc, hacc => by
    rw [List.foldl_cons]
    by_cases hv : clampBoundary v = modeValue ∧ v > acc
    · rw [if_pos hv]
      exact boostFold_clamp modeValue vs v hv.1
    · rw [if_neg hv]
      exact boostFold_clamp modeValue vs acc hacc

theorem clampBoundary_of_mem_map {values : List ℚ} {m : ℚ}
    (hm : m ∈ values.map clampBoundary) : clampBoundary m = m := by
  obtain ⟨x, _, hx⟩ := List.mem_map.mp hm
  rw [← hx, clampBoundary_idem]

theorem modeSnapHighest_eq_maxOfList {values : List ℚ} (h : values ≠ []) :
    modeSnapHighest values = maxOfList (modeCandidates (values.map clampBoundary)) := by
  unfold modeSnapHighest
  rw [if_neg h]
  by_cases hlen : (modeCandidates (values.map clampBoundary)).length = 1
  · rw [if_pos hlen]
    obtain ⟨m, hm⟩ := List.length_eq_one.mp hlen
    rw [hm]
    have hmmem : m ∈ modeCandidates (values.map clampBoundary) := by
      rw [hm]; exact List.mem_cons_self _ _
    have hclm : clampBoundary m = m :=
      clampBoundary_of_mem_map (mem_modeCandidates.mp hmmem).1
    show clampBoundary (values.foldl _ ([m].headD 0)) = maxOfList [m]
    have hhead : ([m].headD 0) = m := rfl
    rw [hhead]
    exact boostFold_clamp m values m hclm
  · rw [if_neg hlen]

theorem modeSnapHighest_perm {v₁ v₂ : List ℚ} (p : v₁.Perm v₂) :
    modeSnapHighest v₁ = modeSnapHighest v₂ := by
  by_cases h : v₁ = []
  · subst h
    rw [p.symm.eq_nil]
  · have h2 : v₂ ≠ [] := fun he => h (he ▸ p).eq_nil
    rw [modeSnapHighest_eq_maxOfList h, modeSnapHighest_eq_maxOfList h2]
    have hmap : (v₁.map clampBoundary).Perm (v₂.map clampBoundary) := p.map clampBoundary
    exact maxOfList_eq_of_mem_iff
      (modeCandidates_ne_nil (by simp [h]))
      (modeCandidates_ne_nil (by simp [h2]))
      (mem_modeCandidates_perm hmap)

theorem modeSnapHighest_le_three {values : List ℚ} (h : values ≠ []) :
    modeSnapHighest values ≤ 3 := by
  rw [modeSnapHighest_eq_maxOfList h]
  apply maxOfList_le (modeCandidates_ne_nil (by simp [h]))
  intro x hx
  obtain ⟨y, _, hy⟩ := List.mem_map.mp (mem_modeCandidates.mp hx).1
  rw [← hy]
  exact clampBoundary_le_three y

theorem majorityVote_find? {α : Type} [DecidableEq α] [Inhabited α] {values order : List α}
    (h1 : values ≠ []) (h2 : ∀ v ∈ values, v ∈ order) :
    order.find? (fun v => decide (values.count v = maxCountOf values)) =
      some (majorityVote values order) := by
  have hmemofcount : ∀ v : α, values.count v = maxCountOf values → v ∈ modeCandidates values := by
    intro v hcv
    exact mem_modeCandidates.mpr ⟨List.count_pos_iff.mp (hcv ▸ maxCountOf_pos h1), hcv⟩
  have hpred : ∀ v : α,
      (decide (values.count v = maxCountOf values)) = decide (v ∈ modeCandidates values) := by
    intro v
    rw [decide_eq_decide]
    exact ⟨hmemofcount v, fun hv => (mem_modeCandidates.mp hv).2⟩
  unfold majorityVote
  rw [if_neg h1]
  by_cases hlen : (modeCandidates values).length = 1
  · rw [if_pos hlen]
    obtain ⟨c, hc⟩ := List.length_eq_one.mp hlen
    have hcmem : c ∈ modeCandidates values := by rw [hc]; exact List.mem_cons_self _ _
    rw [hc]
    apply find?_eq_some_of_unique (h2 c (mem_modeCandidates.mp hcmem).1)
    intro x
    rw [decide_eq_true_eq]
    constructor
    · intro hx
      have := hmemofcount x hx
      rw [hc] at this
      simpa using this
    · rintro rfl
      exact (mem_modeCandidates.mp hcmem).2
  · rw [if_neg hlen, find?_congr_pred hpred]
    cases hfind : order.find? (fun c => decide (c ∈ modeCandidates values)) with
    | none =>
      exfalso
      obtain ⟨c, hcmem⟩ := List.exists_mem_of_ne_nil _ (modeCandidates_ne_nil h1)
      have hcorder : c ∈ order := h2 c (mem_modeCandidates.mp hcmem).1
      have := List.find?_eq_none.mp hfind c hcorder
      simp [hcmem] at this
    | some y => rfl

theorem majorityVote_perm {α : Type} [DecidableEq α] [Inhabited α] {v₁ v₂ order : List α}
    (p : v₁.Perm v₂) (h1 : v₁ ≠ []) (h2 : ∀ x ∈ v₁, x ∈ order) :
    majorityVote v₁ order = majorityVote v₂ order := by
  have h1' : v₂ ≠ [] := fun he => h1 (he ▸ p).eq_nil
  have h2' : ∀ x ∈ v₂, x ∈ order := fun x hx => h2 x (p.mem_iff.mpr hx)
  have hcongr : order.find? (fun v => decide (v₁.count v = maxCountOf v₁)) =
      order.find? (fun v => decide (v₂.count v = maxCountOf v₂)) :=
    find?_congr_pred (fun x => by rw [p.count_eq, maxCountOf_perm p]) order
  exact Option.some.inj
    ((majorityVote_find? h1 h2).symm.trans (hcongr.trans (majorityVote_find? h1' h2')))

theorem specOrdinalRule_eq {values : List ℚ} (h : values ≠ []) :
    specOrdinalRule values = modeSnapHighest values := by
  have hclne : values.map clampBoundary ≠ [] := by simp [h]
  simp only [specOrdinalRule]
  have hfreq : ((values.map clampBoundary).map
        (fun v => (values.map clampBoundary).count v)).foldl max 0 =
      maxCountOf (values.map clampBoundary) := by
    unfold maxCountOf
    apply foldlMax_eq_of_mem_iff
    intro x
    simp only [List.mem_map, List.mem_dedup]
  rw [hfreq]
  have htied_iff : ∀ x,
      (x ∈ (values.map clampBoundary).filter
        (fun v => (values.map clampBoundary).count v = maxCountOf (values.map clampBoundary))) ↔
      x ∈ modeCandidates (values.map clampBoundary) := by
    intro x
    rw [mem_modeCandidates]
    simp [List.mem_filter]
  have htiedne : (values.map clampBoundary).filter
      (fun v => (values.map clampBoundary).count v = maxCountOf (values.map clampBoundary)) ≠ [] := by
    obtain ⟨v, hv, hc⟩ := maxCountOf_attained hclne
    exact List.ne_nil_of_mem ((htied_iff v).mpr (mem_modeCandidates.mpr ⟨hv, hc⟩))
  have hwinner : maxOfList ((values.map clampBoundary).filter
        (fun v => (values.map clampBoundary).count v = maxCountOf (values.map clampBoundary))) =
      maxOfList (modeCandidates (values.map clampBoundary)) :=
    maxOfList_eq_of_mem_iff htiedne (modeCandidates_ne_nil hclne) htied_iff
  rw [hwinner, modeSnapHighest_eq_maxOfList h]
  by_cases hex : values.filter
      (fun v => decide (clampBoundary v = maxOfList (modeCandidates (values.map clampBoundary)) ∧
        v > maxOfList (modeCandidates (values.map clampBoundary)))) = []
  · rw [if_pos hex]
  · rw [if_neg hex]
    have hmem := maxOfList_mem hex
    have hprop := (List.mem_filter.mp hmem).2
    simp only [decide_eq_true_eq] at hprop
    exact hprop.1

theorem mem_of_mem_filter_decide {l order : List String} {x : String}
    (hx : x ∈ l.filter (fun m => decide (m ∈ order))) : x ∈ order := by
  simpa using (List.mem_filter.mp hx).2

theorem majority_branch_eq {v₁ v₂ order : List String} (p : v₁.Perm v₂)
    (hsub : ∀ x ∈ v₁, x ∈ order) (d : String) :
    (if 0 < v₁.length then majorityVote v₁ order else d) =
      (if 0 < v₂.length then majorityVote v₂ order else d) := by
  by_cases h : v₁ = []
  · subst h
    rw [p.symm.eq_nil]
  · have h2 : v₂ ≠ [] := fun he => h (he ▸ p).eq_nil
    rw [if_pos (List.length_pos.mpr h), if_pos (List.length_pos.mpr h2)]
    exact majorityVote_perm p h hsub

theorem computeFinalConfig_configId (now : ℕ) (sels : List SpecsSelection) :
    (computeFinalConfig now sels).meta.configId =
      hashConfig (configPairs (computeFinalConfig now sels).finalConfig) := by
  unfold computeFinalConfig
  by_cases h : sels = [] <;> simp [h]

theorem computeFinalConfig_selectionCount (now : ℕ) (sels : List SpecsSelection) :
    (computeFinalConfig now sels).meta.selectionCount = sels.length := by
  unfold computeFinalConfig
  by_cases h : sels = [] <;> simp [h]

theorem computeFinalConfig_methodVersion (now : ℕ) (sels : List SpecsSelection) :
    (computeFinalConfig now sels).meta.methodVersion = "v1" := by
  unfold computeFinalConfig
  by_cases h : sels = [] <;> simp [h]

theorem computeFinalConfig_perm_finalConfig {s₁ s₂ : List SpecsSelection}
    (p : s₁.Perm s₂) (now₁ now₂ : ℕ) :
    (computeFinalConfig now₁ s₁).finalConfig = (computeFinalConfig now₂ s₂).finalConfig := by
  by_cases h : s₁ = []
  · subst h
    rw [p.symm.eq_nil]
    simp [computeFinalConfig]
  · have h2 : s₂ ≠ [] := fun he => h (he ▸ p).eq_nil
    unfold computeFinalConfig
    rw [if_neg h, if_neg h2]
    dsimp only
    congr 1
    · exact majority_branch_eq ((p.map _).filter _)
        (fun x hx => mem_of_mem_filter_decide hx) _
    · exact majority_branch_eq ((p.map _).filter _)
        (fun x hx => mem_of_mem_filter_decide hx) _
    all_goals exact modeSnapHighest_perm (p.map _)

theorem getEntry_setEntry_self {β : Type} (l : List (String × β)) (k : String) (v : β) :
    getEntry (setEntry l k v) k = some v := by
  induction l with
  | nil => simp [setEntry, getEntry]
  | cons a ps ih =>
    by_cases h : k = a.1
    · simp [setEntry, getEntry, h]
    · simp [setEntry, getEntry, h, ih]

theorem getEntry_setEntry_ne {β : Type} (l : List (String × β)) (k k' : String) (v : β)
    (h : k' ≠ k) : getEntry (setEntry l k v) k' = getEntry l k' := by
  induction l with
  | nil => simp [setEntry, getEntry, h]
  | cons a ps ih =>
    by_cases hk : k = a.1
    · subst hk
      simp [setEntry, getEntry, h]
    · by_cases hk' : k' = a.1
      · simp [setEntry, getEntry, hk, hk']
      · simp [setEntry, getEntry, hk, hk', ih]

theorem insertSorted_perm (s : String) (l : List String) :
    (insertSorted s l).Perm (s :: l) := by
  induction l with
  | nil => exact List.Perm.refl _
  | cons t ts ih =>
    by_cases h : s ≤ t
    · simp [insertSorted, h]
    · simp only [insertSorted, if_neg h]
      exact ((ih.cons t).trans (List.Perm.swap s t ts))

theorem sortKeys_perm (l : List String) : (sortKeys l).Perm l := by
  induction l with
  | nil => exact List.Perm.refl _
  | cons a l ih =>
    show (insertSorted a (sortKeys l)).Perm (a :: l)
    exact (insertSorted_perm a (sortKeys l)).trans (ih.cons a)

theorem insertSorted_sorted (s : String) {l : List String} (hl : l.Sorted (· ≤ ·)) :
    (insertSorted s l).Sorted (· ≤ ·) := by
  induction l with
  | nil => simp [insertSorted]
  | cons t ts ih =>
    rw [List.sorted_cons] at hl
    by_cases h : s ≤ t
    · rw [insertSorted, if_pos h, List.sorted_cons]
      refine ⟨?_, List.sorted_cons.mpr hl⟩
      intro b hb
      rcases List.mem_cons.mp hb with rfl | hb'
      · exact h
      · exact le_trans h (hl.1 b hb')
    · rw [insertSorted, if_neg h, List.sorted_cons]
      refine ⟨?_, ih hl.2⟩
      intro b hb
      rcases List.mem_cons.mp ((insertSorted_perm s ts).mem_iff.mp hb) with rfl | hb'
      · exact le_of_not_le h
      · exact hl.1 b hb'

theorem sortKeys_sorted (l : List String) : (sortKeys l).Sorted (· ≤ ·) := by
  induction l with
  | nil => simp [sortKeys]
  | cons a l ih => exact insertSorted_sorted a ih

theorem sortKeys_eq_of_perm {l₁ l₂ : List String} (p : l₁.Perm l₂) :
    sortKeys l₁ = sortKeys l₂ :=
  List.eq_of_perm_of_sorted ((sortKeys_perm l₁).trans (p.trans (sortKeys_perm l₂).symm))
    (sortKeys_sorted l₁) (sortKeys_sorted l₂)

theorem getField_eq_some_iff {p : List (String × JVal)} (hnd : (p.map Prod.fst).Nodup)
    {k : String} {v : JVal} : getField p k = some v ↔ (k, v) ∈ p := by
  induction p with
  | nil => simp [getField]
  | cons a ps ih =>
    obtain ⟨k', v'⟩ := a
    rw [List.map_cons, List.nodup_cons] at hnd
    by_cases h : k = k'
    · subst h
      rw [getField, if_pos rfl]
      constructor
      · intro hv
        obtain rfl : v' = v := Option.some.inj hv
        exact List.mem_cons_self _ _
      · intro hv
        rcases List.mem_cons.mp hv with he | hm
        · rw [Prod.mk.injEq] at he
          rw [he.2]
        · exact absurd (List.mem_map_of_mem Prod.fst hm) hnd.1
    · rw [getField, if_neg h, ih hnd.2]
      constructor
      · exact fun hm => List.mem_cons_of_mem _ hm
      · intro hm
        rcases List.mem_cons.mp hm with he | hm'
        · rw [Prod.mk.injEq] at he
          exact absurd he.1 h
        · exact hm'

theorem getField_eq_none_iff {p : List (String × JVal)} {k : String} :
    getField p k = none ↔ k ∉ p.map Prod.fst := by
  induction p with
  | nil => simp [getField]
  | cons a ps ih =>
    by_cases h : k = a.1
    · simp [getField, h]
    · simp [getField, h, ih]

theorem getField_perm {p₁ p₂ : List (String × JVal)} (hperm : p₁.Perm p₂)
    (hnd : (p₁.map Prod.fst).Nodup) (k : String) : getField p₁ k = getField p₂ k := by
  have hnd₂ : (p₂.map Prod.fst).Nodup := ((hperm.map Prod.fst).nodup_iff).mp hnd
  cases h : getField p₁ k with
  | some v =>
    exact ((getField_eq_some_iff hnd₂).mpr
      (hperm.mem_iff.mp ((getField_eq_some_iff hnd).mp h))).symm
  | none =>
    have := getField_eq_none_iff.mp h
    exact (getField_eq_none_iff.mpr (fun hm => this ((hperm.map Prod.fst).mem_iff.mpr hm))).symm

theorem createLoop_exhaust (store : Store) (codes : ℕ → String) :
    ∀ f : ℕ, f ≤ 9 → ∀ sid, lookupSession store sid ≠ none →
      (∀ k, 10 - f ≤ k → k ≤ 9 → lookupSession store (jsToLower (codes k)) ≠ none) →
      createLoop store codes (f + 1) sid = jsToLower (codes 10) := by
  intro f
  induction f with
  | zero =>
    intro _ sid hsid _
    simp only [createLoop, if_neg hsid]
  | succ f ih =>
    intro hf sid hsid hall
    simp only [createLoop, if_neg hsid]
    have hidx : 11 - (f + 1 + 1) = 9 - f := by omega
    rw [hidx]
    exact ih (by omega) _ (hall (9 - f) (by omega) (by omega))
      (fun k hk1 hk2 => hall k (by omega) hk2)

theorem clampBoundary_zero : clampBoundary 0 = 0 := by
  have h := clampBoundary_intCast (m := 0) (by norm_num) (by norm_num)
  push_cast at h
  exact h

theorem clampBoundary_one : clampBoundary 1 = 1 := by
  have h := clampBoundary_intCast (m := 1) (by norm_num) (by norm_num)
  push_cast at h
  exact h

theorem clampBoundary_two : clampBoundary 2 = 2 := by
  have h := clampBoundary_intCast (m := 2) (by norm_num) (by norm_num)
  push_cast at h
  exact h

theorem clampBoundary_three : clampBoundary 3 = 3 := by
  have h := clampBoundary_intCast (m := 3) (by norm_num) (by norm_num)
  push_cast at h
  exact h

theorem clampBoundary_five : clampBoundary 5 = 3 := by
  have h : (5 : ℚ) = ((5 : ℤ) : ℚ) := by norm_num
  rw [h, clampBoundary_eq_intCast, jsRound_intCast]
  norm_num

/-! Claim theorems. -/

/-- C5: for every non-empty vote list, `modeSnapHighest` implements the
mode-with-highest-original-value rule exactly as the specification words it
(`specOrdinalRule`), the result never exceeds 3, the concrete examples
`[1,1,3] ↦ 1`, `[2,2,2] ↦ 2`, `[1,2,3] ↦ 3` hold, and a vote of `5` behaves
exactly like a vote of `3`. -/
theorem modeSnapHighest_spec (values : List ℚ) (h : values ≠ []) :
    modeSnapHighest values = specOrdinalRule values
    ∧ modeSnapHighest values ≤ 3
    ∧ modeSnapHighest [1, 1, 3] = 1
    ∧ modeSnapHighest [2, 2, 2] = 2
    ∧ modeSnapHighest [1, 2, 3] = 3
    ∧ (∀ vs : List ℚ, modeSnapHighest (5 :: vs) = modeSnapHighest (3 :: vs)) := by
  refine ⟨(specOrdinalRule_eq h).symm, modeSnapHighest_le_three h, ?_, ?_, ?_, ?_⟩
  · rw [modeSnapHighest_eq_maxOfList (by simp), List.map_cons, List.map_cons, List.map_cons,
      List.map_nil, clampBoundary_one, clampBoundary_three]
    norm_num [modeCandidates, maxCountOf, maxOfList, List.dedup_cons_of_mem,
      List.dedup_cons_of_not_mem, List.dedup_nil, List.count_cons, List.count_nil,
      List.mem_cons, List.filter, List.foldl, beq_iff_eq]
  · rw [modeSnapHighest_eq_maxOfList (by simp), List.map_cons, List.map_cons, List.map_cons,
      List.map_nil, clampBoundary_two]
    norm_num [modeCandidates, maxCountOf, maxOfList, List.dedup_cons_of_mem,
      List.dedup_cons_of_not_mem, List.dedup_nil, List.count_cons, List.count_nil,
      List.mem_cons, List.filter, List.foldl, beq_iff_eq]
  · rw [modeSnapHighest_eq_maxOfList (by simp), List.map_cons, List.map_cons, List.map_cons,
      List.map_nil, clampBoundary_one, clampBoundary_two, clampBoundary_three]
    norm_num [modeCandidates, maxCountOf, maxOfList, List.dedup_cons_of_mem,
      List.dedup_cons_of_not_mem, List.dedup_nil, List.count_cons, List.count_nil,
      List.mem_cons, List.filter, List.foldl, beq_iff_eq]
  · intro vs
    rw [modeSnapHighest_eq_maxOfList (List.cons_ne_nil _ _),
      modeSnapHighest_eq_maxOfList (List.cons_ne_nil _ _),
      List.map_cons, List.map_cons, clampBoundary_five, clampBoundary_three]

/-- Witness for C5 at the concrete vote list `[1, 1, 3]`. -/
theorem modeSnapHighest_spec_witness :
    ([1, 1, 3] : List ℚ) ≠ [] ∧ modeSnapHighest [1, 1, 3] = specOrdinalRule [1, 1, 3] :=
  ⟨by simp, (modeSnapHighest_spec [1, 1, 3] (by simp)).1⟩

/-- C6: when every vote lies in the priority list, `majorityVote` returns the
first value in the priority order attaining the maximal vote count — the
unique value of strictly highest count when no tie, the first tied candidate
otherwise; concretely, goal votes `[none, efficiency]` resolve to `none`,
`[efficiency, american_interests]` to `efficiency`, and `computeFinalConfig`
resolves those categorical ties the same way. -/
theorem majorityVote_categorical_spec (values order : List String)
    (h1 : values ≠ []) (h2 : ∀ v ∈ values, v ∈ order) :
    order.find? (fun v => decide (values.count v = maxCountOf values)) =
      some (majorityVote values order)
    ∧ majorityVote ["none", "efficiency"] VALID_GOALS = "none"
    ∧ majorityVote ["efficiency", "american_interests"] VALID_GOALS = "efficiency"
    ∧ majorityVote ["Claude Opus 4", "Claude Sonnet 3.6"] VALID_MODELS = "Claude Opus 4"
    ∧ (computeFinalConfig 0 [selGoalNone, selGoalEff]).finalConfig.agent_goal = "none"
    ∧ (computeFinalConfig 0 [selGoalEff, selGoalAmer]).finalConfig.agent_goal = "efficiency"
    ∧ (computeFinalConfig 0 [selModelOpus, selModelSonnet]).finalConfig.model =
        "Claude Opus 4" :=
  ⟨majorityVote_find? h1 h2, by decide, by decide, by decide, by decide, by decide, by decide⟩

/-- Witness for C6 at the concrete goal votes `["none", "efficiency"]`. -/
theorem majorityVote_categorical_spec_witness :
    VALID_GOALS.find?
        (fun v => decide ((["none", "efficiency"] : List String).count v =
          maxCountOf (["none", "efficiency"] : List String))) =
      some (majorityVote ["none", "efficiency"] VALID_GOALS) :=
  (majorityVote_categorical_spec ["none", "efficiency"] VALID_GOALS (by simp)
    (by decide)).1

/-- C7: `computeFinalConfig` is deterministic and order-insensitive — on
permuted selection lists (and arbitrary timestamps) it produces the same
`FinalConfig`, the same `configId`, the same `selectionCount` and the same
`methodVersion`; only `computedAt` may differ. -/
theorem computeFinalConfig_deterministic (now₁ now₂ : ℕ) (s₁ s₂ : List SpecsSelection)
    (h : s₁.Perm s₂) :
    (computeFinalConfig now₁ s₁).finalConfig = (computeFinalConfig now₂ s₂).finalConfig
    ∧ (computeFinalConfig now₁ s₁).meta.configId = (computeFinalConfig now₂ s₂).meta.configId
    ∧ (computeFinalConfig now₁ s₁).meta.selectionCount =
        (computeFinalConfig now₂ s₂).meta.selectionCount
    ∧ (computeFinalConfig now₁ s₁).meta.methodVersion =
        (computeFinalConfig now₂ s₂).meta.methodVersion := by
  have hfc := computeFinalConfig_perm_finalConfig h now₁ now₂
  refine ⟨hfc, ?_, ?_, ?_⟩
  · rw [computeFinalConfig_configId, computeFinalConfig_configId, hfc]
  · rw [computeFinalConfig_selectionCount, computeFinalConfig_selectionCount, h.length_eq]
  · rw [computeFinalConfig_methodVersion, computeFinalConfig_methodVersion]

/-- Witness for C7 at a concrete two-element permutation. -/
theorem computeFinalConfig_deterministic_witness :
    (computeFinalConfig 1 [selGoalNone, selGoalEff]).finalConfig =
      (computeFinalConfig 2 [selGoalEff, selGoalNone]).finalConfig :=
  (computeFinalConfig_deterministic 1 2 [selGoalNone, selGoalEff] [selGoalEff, selGoalNone]
    (List.Perm.swap selGoalEff selGoalNone [])).1

/-- C8: `computeFinalConfig` on the empty list returns the fixed default
configuration — default model `DeepSeek-R1`, goal `none`, every boundary and
oversight dial `0` — with `selectionCount = 0`. -/
theorem computeFinalConfig_empty (now : ℕ) :
    (computeFinalConfig now []).finalConfig = defaultConfig
    ∧ defaultConfig.model = "DeepSeek-R1"
    ∧ defaultConfig.agent_goal = "none"
    ∧ defaultConfig.adaptive_learning = 0
    ∧ defaultConfig.long_term_planning = 0
    ∧ defaultConfig.personnel_database = 0
    ∧ defaultConfig.operational_logs = 0
    ∧ defaultConfig.external_notifications = 0
    ∧ defaultConfig.environmental_monitoring = 0
    ∧ defaultConfig.resource_optimization = 0
    ∧ defaultConfig.workflow_automation = 0
    ∧ defaultConfig.integrated_control = 0
    ∧ defaultConfig.audits = 0
    ∧ defaultConfig.red_team = 0
    ∧ defaultConfig.sandbox = 0
    ∧ (computeFinalConfig now []).meta.selectionCount = 0 := by
  refine ⟨by simp [computeFinalConfig], rfl, rfl, rfl, rfl, rfl, rfl, rfl, rfl, rfl, rfl,
    rfl, rfl, rfl, rfl, by simp [computeFinalConfig]⟩

/-- C2: `lockSession` succeeds exactly when the session exists, is in lobby
status, and the caller's host identifier matches the session's `hostId`; every
failure leaves the store unchanged (the transaction aborts with no writes);
and a success performs exactly one atomic session update writing
`status = locked`, a `lockedAt` timestamp, the `finalConfig` and the
`finalConfigMeta`, leaving the selection records and every other session
untouched. -/
theorem lockSession_atomic_spec (now : ℕ) (hostId sessionId : String) (store : Store)
    (customConfig : Option FinalConfig) :
    ((lockSession now hostId store sessionId customConfig).1 = .ok () ↔
      ∃ s, lookupSession store sessionId = some s ∧ s.status = .lobby ∧ s.hostId = hostId)
    ∧ ((lockSession now hostId store sessionId customConfig).1 ≠ .ok () →
        (lockSession now hostId store sessionId customConfig).2 = store)
    ∧ (∀ s, lookupSession store sessionId = some s → s.status = .lobby →
        s.hostId = hostId →
        ∃ fc fm, (lockSession now hostId store sessionId customConfig).2 =
          { store with
              sessions :=
                setEntry store.sessions sessionId
                  ({ s with
                      status := .locked, lockedAt := some now,
                      finalConfig := some fc, finalConfigMeta := some fm }) })
    ∧ (lockSession now hostId store sessionId customConfig).2.selections = store.selections
    ∧ (∀ k, k ≠ sessionId →
        lookupSession (lockSession now hostId store sessionId customConfig).2 k =
          lookupSession store k) := by
  unfold lockSession
  cases hl : lookupSession store sessionId with
  | none =>
    refine ⟨by simp, fun _ => rfl, ?_, rfl, fun k hk => rfl⟩
    intro s hs
    exact absurd hs (by simp)
  | some s0 =>
    dsimp only
    by_cases hst : s0.status = .lobby
    · by_cases hh : s0.hostId = hostId
      · rw [if_neg (not_not_intro hst), if_neg (not_not_intro hh)]
        cases customConfig with
        | none =>
          dsimp only
          refine ⟨iff_of_true rfl ⟨s0, rfl, hst, hh⟩, fun hne => absurd rfl hne, ?_, rfl,
            fun k hk => getEntry_setEntry_ne _ _ _ _ hk⟩
          intro s hs h1 h2
          cases Option.some.inj hs
          exact ⟨_, _, rfl⟩
        | some c =>
          dsimp only
          refine ⟨iff_of_true rfl ⟨s0, rfl, hst, hh⟩, fun hne => absurd rfl hne, ?_, rfl,
            fun k hk => getEntry_setEntry_ne _ _ _ _ hk⟩
          intro s hs h1 h2
          cases Option.some.inj hs
          exact ⟨_, _, rfl⟩
      · rw [if_neg (not_not_intro hst), if_pos hh]
        refine ⟨?_, fun _ => rfl, ?_, rfl, fun k hk => rfl⟩
        · apply iff_of_false (by simp)
          rintro ⟨s, hs, _, h2⟩
          cases Option.some.inj hs
          exact hh h2
        · intro s hs h1 h2
          cases Option.some.inj hs
          exact absurd h2 hh
    · rw [if_pos hst]
      refine ⟨?_, fun _ => rfl, ?_, rfl, fun k hk => rfl⟩
      · apply iff_of_false (by simp)
        rintro ⟨s, hs, h1, _⟩
        cases Option.some.inj hs
        exact hst h1
      · intro s hs h1 h2
        cases Option.some.inj hs
        exact absurd h1 hst

/-- Witness for C2: at a concrete lobby store the host's lock call succeeds. -/
theorem lockSession_atomic_spec_witness :
    (lockSession 5 "host_1" exampleHostVoteStore "abc234" none).1 = .ok () :=
  (lockSession_atomic_spec 5 "host_1" "abc234" exampleHostVoteStore none).1.mpr
    ⟨exampleLobbySession, rfl, rfl, rfl⟩

/-- C3: `submitSelection` against a locked (or ended) session is rejected with
the InvalidState error and leaves the stored state — selection records and any
stored FinalConfig — unchanged.  The rejection layer (`firestore.rules`) is
absent from the sources and is modelled from the spec, see `submitSelection`. -/
theorem submitSelection_rejected_post_lock (now : ℕ) (playerId : String)
    (playerName : Option String) (store : Store) (sessionId : String)
    (specs : SpecsSelection) (s : Session)
    (hs : lookupSession store sessionId = some s)
    (hlocked : s.status = .locked ∨ s.status = .ended) :
    submitSelection now playerId playerName store sessionId specs =
      (.error "InvalidState", store) := by
  unfold submitSelection
  rw [hs]
  have hne : Option.map Session.status (some s) ≠ some SessionStatus.lobby := by
    rcases hlocked with h | h <;> simp [Option.map, h]
  rw [if_neg hne]

/-- Witness for C3 at a concrete locked store. -/
theorem submitSelection_rejected_post_lock_witness :
    submitSelection 2 "player_1" none exampleLockedStore "abc234" baseSelection =
      (.error "InvalidState", exampleLockedStore) :=
  submitSelection_rejected_post_lock 2 "player_1" none exampleLockedStore "abc234"
    baseSelection _ rfl (Or.inl rfl)

/-- C4 counterexample: `computeFinalConfig` never raises on out-of-domain
categorical values — on input containing a selection with unknown model
`Llama-3` and unknown goal `world_peace` it returns an ordinary aggregate in
which the unrecognized votes were silently dropped (the other selection's
valid votes win; with no valid votes left, the defaults), contradicting the
claim that a ValidationError is raised. -/
theorem computeFinalConfig_silently_drops :
    selBogus.model ∉ VALID_MODELS
    ∧ selBogus.agent_goal ∉ VALID_GOALS
    ∧ (computeFinalConfig 0 [selBogus, selValidGPT]).finalConfig.model = "GPT-4.1"
    ∧ (computeFinalConfig 0 [selBogus, selValidGPT]).finalConfig.agent_goal = "efficiency"
    ∧ (computeFinalConfig 0 [selBogus]).finalConfig.model = "DeepSeek-R1"
    ∧ (computeFinalConfig 0 [selBogus]).finalConfig.agent_goal = "none" :=
  ⟨by decide, by decide, by decide, by decide, by decide, by decide⟩

/-- C4 amended: `computeFinalConfig` is total (the aggregation module contains
no raise path): a selection whose model is outside `VALID_MODELS` is silently
excluded from the model vote, and one whose goal is outside `VALID_GOALS` is
silently excluded from the goal vote, the defaults applying when no valid
votes remain. -/
theorem computeFinalConfig_filters_invalid (now : ℕ) (sels : List SpecsSelection)
    (s : SpecsSelection) :
    (s.model ∉ VALID_MODELS →
      (computeFinalConfig now (s :: sels)).finalConfig.model =
        (computeFinalConfig now sels).finalConfig.model)
    ∧ (s.agent_goal ∉ VALID_GOALS →
      (computeFinalConfig now (s :: sels)).finalConfig.agent_goal =
        (computeFinalConfig now sels).finalConfig.agent_goal) := by
  constructor
  · intro hm
    have hdm : decide (s.model ∈ VALID_MODELS) = false := decide_eq_false hm
    by_cases hsels : sels = []
    · subst hsels
      simp [computeFinalConfig, hdm, defaultConfig]
    · unfold computeFinalConfig
      rw [if_neg (List.cons_ne_nil s sels), if_neg hsels]
      dsimp only
      rw [List.map_cons, List.filter_cons, hdm]
      simp
  · intro hg
    have hdg : decide (s.agent_goal ∈ VALID_GOALS) = false := decide_eq_false hg
    by_cases hsels : sels = []
    · subst hsels
      simp [computeFinalConfig, hdg, defaultConfig]
    · unfold computeFinalConfig
      rw [if_neg (List.cons_ne_nil s sels), if_neg hsels]
      dsimp only
      rw [List.map_cons, List.filter_cons, hdg]
      simp

/-- Witness for C4's amended theorem at the concrete bogus selection. -/
theorem computeFinalConfig_filters_invalid_witness :
    (computeFinalConfig 0 [selBogus, selValidGPT]).finalConfig.model =
      (computeFinalConfig 0 [selValidGPT]).finalConfig.model :=
  (computeFinalConfig_filters_invalid 0 [selValidGPT] selBogus).1 (by decide)

/-- C9: `hashConfig` is invariant to the field-declaration order of its input
object — two objects carrying the same fields in any insertion order hash to
the identical identifier string. -/
theorem hashConfig_field_order_invariant (p₁ p₂ : List (String × JVal))
    (hperm : p₁.Perm p₂) (hnd : (p₁.map Prod.fst).Nodup) :
    hashConfig p₁ = hashConfig p₂ := by
  have hkeys : sortKeys (p₁.map Prod.fst) = sortKeys (p₂.map Prod.fst) :=
    sortKeys_eq_of_perm (hperm.map Prod.fst)
  have hget : ∀ k, getField p₁ k = getField p₂ k := getField_perm hperm hnd
  unfold hashConfig stableStringify
  rw [hkeys]
  have hfun : (fun k => "\"" ++ k ++ "\":" ++ serializeJVal ((getField p₁ k).getD (.str ""))) =
      (fun k => "\"" ++ k ++ "\":" ++ serializeJVal ((getField p₂ k).getD (.str ""))) := by
    funext k
    rw [hget k]
  rw [hfun]

/-- Witness for C9 at a concrete two-field object and its transposition. -/
theorem hashConfig_field_order_invariant_witness :
    hashConfig [("model", .str "DeepSeek-R1"), ("audits", .num 1)] =
      hashConfig [("audits", .num 1), ("model", .str "DeepSeek-R1")] :=
  hashConfig_field_order_invariant _ _ (List.Perm.swap _ _ []) (by decide)

/-- C1 counterexample: with a lobby session whose only stored selection record
is keyed by the session's own `hostId` (voting model `GPT-4.1`), the host's
`lockSession` call succeeds and incorporates that record — the locked model is
`GPT-4.1`, while aggregating the host-excluded records (none) would give the
default `DeepSeek-R1`.  So a hostId-keyed selection is not excluded on the
lock path. -/
theorem lockSession_includes_host_selection :
    (lockSession 5 "host_1" exampleHostVoteStore "abc234" none).1 = .ok ()
    ∧ ((lookupSession (lockSession 5 "host_1" exampleHostVoteStore "abc234" none).2
        "abc234").bind Session.finalConfig).map FinalConfig.model = some "GPT-4.1"
    ∧ (computeFinalConfig 5 (((sessionSelections exampleHostVoteStore "abc234").filter
        (fun d => d.1 ≠ "host_1")).map (fun d => d.2.specs))).finalConfig.model =
      "DeepSeek-R1" :=
  ⟨rfl, by decide, by decide⟩

/-- C1 amended: the host-exclusion convention holds only on the live-preview
path — `sessionLobbyPreview` never incorporates a selection keyed by the
session's `hostId` — whereas `lockSession` (without a custom config)
aggregates over all stored selection records of the session, including any
keyed by the session's `hostId`. -/
theorem host_exclusion_preview_only :
    (∀ (now : ℕ) (hostId : String) (ps : PlayerSelection)
        (sels : List (String × PlayerSelection)),
      sessionLobbyPreview now hostId ((hostId, ps) :: sels) =
        sessionLobbyPreview now hostId sels)
    ∧ (∀ (now : ℕ) (hostId sessionId : String) (store st' : Store),
        lockSession now hostId store sessionId none = (.ok (), st') →
        ∃ s, lookupSession store sessionId = some s ∧
          lookupSession st' sessionId = some
            ({ s with
                status := .locked, lockedAt := some now,
                finalConfig := some (computeFinalConfig now
                  ((sessionSelections store sessionId).map (fun d => d.2.specs))).finalConfig,
                finalConfigMeta := some (computeFinalConfig now
                  ((sessionSelections store sessionId).map (fun d => d.2.specs))).meta })) := by
  constructor
  · intro now hostId ps sels
    unfold sessionLobbyPreview
    simp
  · intro now hostId sessionId store st' heq
    unfold lockSession at heq
    cases hl : lookupSession store sessionId with
    | none =>
      rw [hl] at heq
      dsimp only at heq
      exact absurd (congrArg Prod.fst heq) (by simp)
    | some s0 =>
      rw [hl] at heq
      dsimp only at heq
      by_cases hst : s0.status = .lobby
      · by_cases hh : s0.hostId = hostId
        · rw [if_neg (not_not_intro hst), if_neg (not_not_intro hh)] at heq
          have hst' := congrArg Prod.snd heq
          dsimp only at hst'
          refine ⟨s0, rfl, ?_⟩
          rw [← hst']
          exact getEntry_setEntry_self _ _ _
        · rw [if_neg (not_not_intro hst), if_pos hh] at heq
          exact absurd (congrArg Prod.fst heq) (by simp)
      · rw [if_pos hst] at heq
        exact absurd (congrArg Prod.fst heq) (by simp)

/-- Witness for C1's amended theorem at the concrete host-vote store. -/
theorem host_exclusion_preview_only_witness :
    ∃ s, lookupSession exampleHostVoteStore "abc234" = some s ∧
      lookupSession (lockSession 5 "host_1" exampleHostVoteStore "abc234" none).2
          "abc234" =
        some
          ({ s with
              status := .locked, lockedAt := some 5,
              finalConfig := some (computeFinalConfig 5
                ((sessionSelections exampleHostVoteStore "abc234").map
                  (fun d => d.2.specs))).finalConfig,
              finalConfigMeta := some (computeFinalConfig 5
                ((sessionSelections exampleHostVoteStore "abc234").map
                  (fun d => d.2.specs))).meta }) :=
  host_exclusion_preview_only.2 5 "host_1" "abc234" exampleHostVoteStore
    (lockSession 5 "host_1" exampleHostVoteStore "abc234" none).2
    (by
      have h1 : (lockSession 5 "host_1" exampleHostVoteStore "abc234" none).1 =
          Except.ok () := rfl
      rw [← h1])

/-- C10: `createSession` never fails on a join-code collision: when all 10
collision checks find an existing session (the keys of codes 0 through 9 are
all taken), the loop exits and the new lobby session record is still written —
under the 11th generated key, overwriting any record stored there instead of
raising an error, and touching no other key. -/
theorem createSession_collision_overwrites (now : ℕ) (hostId : String)
    (codes : ℕ → String) (store : Store)
    (h : ∀ k, k ≤ 9 → lookupSession store (jsToLower (codes k)) ≠ none) :
    (createSession now hostId codes store).1.1 = jsToLower (codes 10)
    ∧ (createSession now hostId codes store).1.2 = jsToUpper (jsToLower (codes 10))
    ∧ lookupSession (createSession now hostId codes store).2 (jsToLower (codes 10)) =
        some
          ({ joinCode := jsToUpper (jsToLower (codes 10)), status := .lobby,
             hostId := hostId, createdAt := now, lockedAt := none,
             finalConfig := none, finalConfigMeta := none })
    ∧ (∀ k, k ≠ jsToLower (codes 10) →
        lookupSession (createSession now hostId codes store).2 k =
          lookupSession store k)
    ∧ (createSession now hostId codes store).2.selections = store.selections := by
  have hloop : createLoop store codes 10 (jsToLower (codes 0)) = jsToLower (codes 10) := by
    have h10 : (10 : ℕ) = 9 + 1 := rfl
    rw [h10]
    exact createLoop_exhaust store codes 9 le_rfl _ (h 0 (by norm_num))
      (fun k hk1 hk2 => h k hk2)
  unfold createSession
  dsimp only
  rw [hloop]
  exact ⟨rfl, rfl, getEntry_setEntry_self _ _ _,
    fun k hk => getEntry_setEntry_ne _ _ _ _ hk, rfl⟩

/-- Witness for C10 at a concrete store where codes 0 through 10 all collide. -/
theorem createSession_collision_overwrites_witness :
    (createSession 0 "host_9" exampleCodes exampleFullStore).1.1 =
      jsToLower (exampleCodes 10) :=
  (createSession_collision_overwrites 0 "host_9" exampleCodes exampleFullStore
    (by decide)).1
